import Mathlib

/-!
Verification of the core of the poloniex-api client library.

The Go source is shallowly embedded: pure functions become Lean functions,
mutable client state (nonce counter, subscription set) becomes explicit state
passing, the JSON wire values become an inductive type `J`, and runtime panics
(failed type assertions, out-of-range indexing) become explicit outcomes of the
step functions.  Machine `int64` arithmetic is modelled on `Int` with explicit
wrapping where overflow matters; `float64` values are modelled as exact
rationals (`ℚ`), which is faithful for the assignments and comparisons with
`0`/`1` that the code under verification performs.
-/

namespace Polo

/-- A Go `map[string]string`, modelled as a function to `Option String`
(missing key ↦ `none`).  `insert` is Go map assignment: the last write wins. -/
def SMap : Type := String → Option String

/-- The empty map. -/
def SMap.empty : SMap := fun _ => none

/-- Go `m[k] = v`. -/
def SMap.insert (m : SMap) (k v : String) : SMap :=
  fun x => if x = k then some v else m x

@[simp]
theorem SMap.insert_same (m : SMap) (k v : String) : m.insert k v k = some v := by
  simp [SMap.insert]

@[simp]
theorem SMap.insert_other (m : SMap) (k v x : String) (h : x ≠ k) :
    m.insert k v x = m x := by
  simp [SMap.insert, h]

/-- Go `fmt.Sprintf("%d", i)` on an `int64` value. -/
def intDec (i : Int) : String :=
  if i < 0 then "-" ++ Nat.repr (-i).toNat else Nat.repr i.toNat

/-- Last-match lookup in an association list: the value of the *last* entry
whose key is `k`.  This is the observable content of a sequence of Go map
assignments performed in list order. -/
def lookupLast (l : List (String × String)) (k : String) : Option String :=
  match l with
  | [] => none
  | (k0, v0) :: rest =>
    match lookupLast rest k with
    | some v => some v
    | none => if k = k0 then some v0 else none

theorem mem_of_lookupLast {l : List (String × String)} {k v : String}
    (h : lookupLast l k = some v) : (k, v) ∈ l := by
  induction l with
  | nil => simp [lookupLast] at h
  | cons p rest ih =>
    obtain ⟨k0, v0⟩ := p
    simp only [lookupLast] at h
    cases hr : lookupLast rest k with
    | some w =>
      rw [hr] at h
      exact List.mem_cons_of_mem _ (ih (hr.trans h))
    | none =>
      rw [hr] at h
      by_cases hk : k = k0
      · rw [if_pos hk] at h
        obtain rfl := hk
        obtain rfl : v0 = v := Option.some.inj h
        exact List.mem_cons_self _ _
      · simp [hk] at h

theorem lookupLast_of_mem_nodup {l : List (String × String)} {k v : String}
    (hmem : (k, v) ∈ l) (hnd : (l.map Prod.fst).Nodup) : lookupLast l k = some v := by
  induction l with
  | nil => simp at hmem
  | cons p rest ih =>
    obtain ⟨k0, v0⟩ := p
    simp only [List.map_cons, List.nodup_cons] at hnd
    rcases List.mem_cons.mp hmem with heq | hrest
    · obtain ⟨rfl, rfl⟩ : k = k0 ∧ v = v0 := Prod.mk.injEq .. ▸ heq
      have hnone : lookupLast rest k = none := by
        cases hcase : lookupLast rest k with
        | none => rfl
        | some w =>
          exact absurd (List.mem_map_of_mem (f := Prod.fst) (mem_of_lookupLast hcase))
            (by simpa using hnd.1)
      simp [lookupLast, hnone]
    · have := ih hrest hnd.2
      simp [lookupLast, this]

/-- The symbol registry: the two lookup maps held on the `Poloniex` client. -/
structure Registry where
  ByID : SMap
  ByName : SMap

/-- One iteration of the market loop in `getMarkets`:
`id := fmt.Sprintf("%d", v.ID); ByName[k] = id; ByID[id] = k`. -/
def marketsStep (acc : SMap × SMap) (kv : String × Int) : SMap × SMap :=
  let ids := intDec kv.2
  (acc.1.insert kv.1 ids, acc.2.insert ids kv.1)

/-- `getMarkets` (part_002, lines 109–134): bootstrap the registry from the
ticker result.  `markets` is the ticker map as a list of
(pair name, numeric market id) entries — distinct names, since Go map keys are
distinct; Go map iteration order is the list order.  After the market loop the
four reserved control entries are overlaid. -/
def getMarkets (markets : List (String × Int)) : Registry :=
  let p := markets.foldl marketsStep (SMap.empty, SMap.empty)
  let byID := (((p.2.insert "1001" "trollbox").insert "1002" "ticker").insert
    "1003" "footer").insert "1010" "heartbeat"
  let byName := (((p.1.insert "trollbox" "1001").insert "ticker" "1002").insert
    "footer" "1003").insert "heartbeat" "1010"
  ⟨byID, byName⟩

theorem foldl_marketsStep_fst (l : List (String × Int)) (acc : SMap × SMap) (n : String) :
    (l.foldl marketsStep acc).1 n =
      match lookupLast (l.map fun p => (p.1, intDec p.2)) n with
      | some i => some i
      | none => acc.1 n := by
  induction l generalizing acc with
  | nil => simp [lookupLast]
  | cons q rest ih =>
    simp only [List.foldl_cons, List.map_cons, lookupLast, ih]
    cases lookupLast (rest.map fun p => (p.1, intDec p.2)) n with
    | some v => rfl
    | none =>
      by_cases h : n = q.1 <;> simp [marketsStep, SMap.insert, h]

theorem foldl_marketsStep_snd (l : List (String × Int)) (acc : SMap × SMap) (i : String) :
    (l.foldl marketsStep acc).2 i =
      match lookupLast (l.map fun p => (intDec p.2, p.1)) i with
      | some n => some n
      | none => acc.2 i := by
  induction l generalizing acc with
  | nil => simp [lookupLast]
  | cons q rest ih =>
    simp only [List.foldl_cons, List.map_cons, lookupLast, ih]
    cases lookupLast (rest.map fun p => (intDec p.2, p.1)) i with
    | some v => rfl
    | none =>
      by_cases h : i = intDec q.2 <;> simp [marketsStep, SMap.insert, h]

/-- The four reserved control names overlaid by `getMarkets`. -/
def controlNames : List String := ["trollbox", "ticker", "footer", "heartbeat"]

/-- The four reserved control ids overlaid by `getMarkets`. -/
def controlIDs : List String := ["1001", "1002", "1003", "1010"]

theorem getMarkets_ByName (l : List (String × Int)) (n : String)
    (h : n ∉ controlNames) :
    (getMarkets l).ByName n = lookupLast (l.map fun p => (p.1, intDec p.2)) n := by
  simp only [controlNames, List.mem_cons, not_or] at h
  obtain ⟨h1, h2, h3, h4, -⟩ := h
  simp only [getMarkets, SMap.insert, h1, h2, h3, h4, if_neg]
  rw [foldl_marketsStep_fst]
  cases lookupLast (l.map fun p => (p.1, intDec p.2)) n with
  | some v => rfl
  | none => rfl

theorem getMarkets_ByID (l : List (String × Int)) (i : String)
    (h : i ∉ controlIDs) :
    (getMarkets l).ByID i = lookupLast (l.map fun p => (intDec p.2, p.1)) i := by
  simp only [controlIDs, List.mem_cons, not_or] at h
  obtain ⟨h1, h2, h3, h4, -⟩ := h
  simp only [getMarkets, SMap.insert, h1, h2, h3, h4, if_neg]
  rw [foldl_marketsStep_snd]
  cases lookupLast (l.map fun p => (intDec p.2, p.1)) i with
  | some v => rfl
  | none => rfl

/-- The spec's invariant for the registry: `ByName` and `ByID` are exact
inverses. -/
def ExactInverses (r : Registry) : Prop :=
  (∀ n i, r.ByName n = some i → r.ByID i = some n) ∧
  (∀ i n, r.ByID i = some n → r.ByName n = some i)

theorem map_fst_of_swapped (l : List (String × Int)) :
    ((l.map fun p => (intDec p.2, p.1)).map Prod.fst) = l.map fun p => intDec p.2 := by
  simp [List.map_map, Function.comp]

theorem map_fst_of_named (l : List (String × Int)) :
    ((l.map fun p => (p.1, intDec p.2)).map Prod.fst) = l.map Prod.fst := by
  simp [List.map_map, Function.comp]

/-- Claim C3 (amended): after `getMarkets` bootstrap the two maps are exact
inverses, provided the ticker result has pairwise-distinct names and
pairwise-distinct stringified ids, no name collides with a reserved control
name, and no id collides with a reserved control id. -/
theorem getMarkets_exact_inverses (l : List (String × Int))
    (hn : (l.map Prod.fst).Nodup)
    (hi : (l.map fun p => intDec p.2).Nodup)
    (hcn : ∀ p ∈ l, p.1 ∉ controlNames)
    (hci : ∀ p ∈ l, intDec p.2 ∉ controlIDs) :
    ExactInverses (getMarkets l) := by
  constructor
  · intro n i h
    by_cases hc : n ∈ controlNames
    · simp only [controlNames, List.mem_cons, List.not_mem_nil, or_false] at hc
      rcases hc with rfl | rfl | rfl | rfl
      · have e : (getMarkets l).ByName "trollbox" = some "1001" := rfl
        obtain rfl := Option.some.inj (e.symm.trans h)
        rfl
      · have e : (getMarkets l).ByName "ticker" = some "1002" := rfl
        obtain rfl := Option.some.inj (e.symm.trans h)
        rfl
      · have e : (getMarkets l).ByName "footer" = some "1003" := rfl
        obtain rfl := Option.some.inj (e.symm.trans h)
        rfl
      · have e : (getMarkets l).ByName "heartbeat" = some "1010" := rfl
        obtain rfl := Option.some.inj (e.symm.trans h)
        rfl
    · rw [getMarkets_ByName l n hc] at h
      obtain ⟨p, hp, hpe⟩ := List.mem_map.mp (mem_of_lookupLast h)
      obtain ⟨hp1, hp2⟩ : p.1 = n ∧ intDec p.2 = i := Prod.mk.injEq .. ▸ hpe
      have hic : i ∉ controlIDs := hp2 ▸ hci p hp
      rw [getMarkets_ByID l i hic]
      refine lookupLast_of_mem_nodup (List.mem_map.mpr ⟨p, hp, ?_⟩) ?_
      · rw [hp1, hp2]
      · rw [map_fst_of_swapped]
        exact hi
  · intro i n h
    by_cases hc : i ∈ controlIDs
    · simp only [controlIDs, List.mem_cons, List.not_mem_nil, or_false] at hc
      rcases hc with rfl | rfl | rfl | rfl
      · have e : (getMarkets l).ByID "1001" = some "trollbox" := rfl
        obtain rfl := Option.some.inj (e.symm.trans h)
        rfl
      · have e : (getMarkets l).ByID "1002" = some "ticker" := rfl
        obtain rfl := Option.some.inj (e.symm.trans h)
        rfl
      · have e : (getMarkets l).ByID "1003" = some "footer" := rfl
        obtain rfl := Option.some.inj (e.symm.trans h)
        rfl
      · have e : (getMarkets l).ByID "1010" = some "heartbeat" := rfl
        obtain rfl := Option.some.inj (e.symm.trans h)
        rfl
    · rw [getMarkets_ByID l i hc] at h
      obtain ⟨p, hp, hpe⟩ := List.mem_map.mp (mem_of_lookupLast h)
      obtain ⟨hp1, hp2⟩ : intDec p.2 = i ∧ p.1 = n := Prod.mk.injEq .. ▸ hpe
      have hnc : n ∉ controlNames := hp2 ▸ hcn p hp
      rw [getMarkets_ByName l n hnc]
      refine lookupLast_of_mem_nodup (List.mem_map.mpr ⟨p, hp, ?_⟩) ?_
      · rw [hp1, hp2]
      · rw [map_fst_of_named]
        exact hn

/-- Claim C3 counterexample: a market pair named `"trollbox"` with id 5 breaks
the inverse property — `ByID "5" = "trollbox"` but the control overlay makes
`ByName "trollbox" = "1001" ≠ "5"`. -/
theorem getMarkets_not_inverse_cex :
    ¬ ExactInverses (getMarkets [("trollbox", 5)]) := by
  intro hinv
  have h1 : (getMarkets [("trollbox", 5)]).ByID "5" = some "trollbox" := by decide
  have h2 := hinv.2 "5" "trollbox" h1
  have h3 : (getMarkets [("trollbox", 5)]).ByName "trollbox" = some "1001" := by decide
  exact absurd (h2.symm.trans h3) (by decide)

/-- Witness for `getMarkets_exact_inverses` at a concrete one-market ticker
result. -/
theorem getMarkets_exact_inverses_witness :
    ExactInverses (getMarkets [("BTC_ETH", 148)]) :=
  getMarkets_exact_inverses _ (by decide) (by decide) (by decide) (by decide)

/-! ### Nonce source (part_002, `getNonce`; part_000, `private`) -/

/-- Wrap an unbounded integer into the `int64` two's-complement range,
modelling Go `int64` overflow. -/
def int64wrap (n : Int) : Int := (n + 2 ^ 63) % 2 ^ 64 - 2 ^ 63

/-- `getNonce` (part_002, lines 54–57): `p.nonce++; return fmt.Sprintf("%d", p.nonce)`.
Takes the current counter value and returns the formatted nonce together with
the updated counter.  The increment wraps as Go `int64` arithmetic does. -/
def getNonce (nonce : Int) : String × Int :=
  let n := int64wrap (nonce + 1)
  (intDec n, n)

/-- The nonce counter after `k` successive `getNonce` calls starting from
`seed` (`time.Now().UnixNano()` at client construction).  The k-th
authenticated call (1-based) observes the value `nonceState seed k`:
`private` (part_000 line 607) performs `params.Set("nonce", p.getNonce())`
exactly once per call, under the client mutex. -/
def nonceState (seed : Int) : Nat → Int
  | 0 => seed
  | k + 1 => (getNonce (nonceState seed k)).2

/-- The `nonce` form parameter actually sent by the k-th (1-based) private
call: the decimal rendering of the counter. -/
def sentNonce (seed : Int) (k : Nat) : String := intDec (nonceState seed k)

theorem int64wrap_eq_self {n : Int} (h1 : -2 ^ 63 ≤ n) (h2 : n < 2 ^ 63) :
    int64wrap n = n := by
  unfold int64wrap
  rw [Int.emod_eq_of_lt (by omega) (by omega)]
  omega

theorem nonceState_eq_add (seed : Int) (k : Nat) (hseed : 0 ≤ seed)
    (hbound : seed + k < 2 ^ 63) : nonceState seed k = seed + k := by
  induction k with
  | zero => simp [nonceState]
  | succ m ih =>
    have hm : seed + m < 2 ^ 63 := by
      have : (m : Int) < ((m + 1 : Nat) : Int) := by exact_mod_cast Nat.lt_succ_self m
      omega
    have hcast : ((m + 1 : Nat) : Int) = (m : Int) + 1 := by push_cast; ring
    rw [hcast] at hbound
    rw [nonceState, ih hm]
    show int64wrap (seed + m + 1) = seed + ((m + 1 : Nat) : Int)
    rw [int64wrap_eq_self (by omega) (by omega)]
    omega

/-- Claim C2: successive `getNonce` invocations from the initial wall-clock
seed return strictly increasing nonce values, so every authenticated call
sends a nonce strictly greater than every earlier call's.  The hypotheses say
the seed is nonnegative (true of `UnixNano`) and the run does not overflow
`int64` (the seed is ~2^60 and the counter gains 1 per call, so ~2^62 calls
would be needed to overflow). -/
theorem getNonce_strictly_increasing (seed : Int) (i j : Nat)
    (hseed : 0 ≤ seed) (hij : i < j) (hbound : seed + j < 2 ^ 63) :
    nonceState seed i < nonceState seed j := by
  have hj : (i : Int) < (j : Int) := by exact_mod_cast hij
  rw [nonceState_eq_add seed i hseed (by omega), nonceState_eq_add seed j hseed hbound]
  omega

/-- Witness for `getNonce_strictly_increasing`: calls 1 and 3 from a realistic
nanosecond seed. -/
theorem getNonce_strictly_increasing_witness :
    nonceState 1700000000000000000 1 < nonceState 1700000000000000000 3 :=
  getNonce_strictly_increasing 1700000000000000000 1 3 (by decide) (by decide) (by decide)

/-! ### JSON wire values and numeric coercion (part_002, `toFloat`) -/

/-- Largest finite `float64` (`math.MaxFloat64`), exactly
`(2 - 2^-52) * 2^1023 = 2^1024 - 2^971`. -/
def maxFloat : ℚ := mkRat ((2 ^ 1024 - 2 ^ 971 : Nat) : Int) 1

/-- A decoded JSON value as produced by Go's `encoding/json` into an
`interface{}`: `nil`, booleans, numbers (always decoded as `float64`),
strings, arrays, objects.  `float64` numbers are modelled as exact
rationals. -/
inductive J where
  | null : J
  | boolean : Bool → J
  | num : ℚ → J
  | str : String → J
  | arr : List J → J
  | obj : List (String × J) → J

/-- Index into a Go `[]interface{}` value: `l[i]` with an in-range check made
explicit (`none` is where the Go code panics with an index-out-of-range). -/
def jIdx (l : List J) (i : Nat) : Option J := l[i]?

/-- Accumulate the value of a run of decimal digit characters. -/
def digitsNat (cs : List Char) : Nat :=
  cs.foldl (fun a c => 10 * a + (c.toNat - 48)) 0

/-- Split a character list at the first occurrence of `c`; second component
`none` if `c` does not occur. -/
def splitOnChar (c : Char) : List Char → List Char × Option (List Char)
  | [] => ([], none)
  | x :: rest =>
    if x = c then ([], some rest)
    else
      let r := splitOnChar c rest
      (x :: r.1, r.2)

/-- A decimal mantissa `digits[.digits]` (either side may be empty but not
both), returned as (combined digits, number of fraction digits), so that its
value is the first component over `10 ^` the second. -/
def mantissaParts (cs : List Char) : Option (Nat × Nat) :=
  let p := splitOnChar '.' cs
  match p.2 with
  | none =>
    if !p.1.isEmpty && p.1.all Char.isDigit then some (digitsNat p.1, 0) else none
  | some fp =>
    if (!p.1.isEmpty || !fp.isEmpty) && p.1.all Char.isDigit && fp.all Char.isDigit then
      some (digitsNat p.1 * 10 ^ fp.length + digitsNat fp, fp.length)
    else none

/-- Value of an exponent part: optional sign followed by digits. -/
def expVal (cs : List Char) : Option Int :=
  match cs with
  | '-' :: rest =>
    if !rest.isEmpty && rest.all Char.isDigit then some (-(digitsNat rest : Int)) else none
  | '+' :: rest =>
    if !rest.isEmpty && rest.all Char.isDigit then some (digitsNat rest : Int) else none
  | _ =>
    if !cs.isEmpty && cs.all Char.isDigit then some (digitsNat cs : Int) else none

/-- `strconv.ParseFloat(s, 64)`, modelled as exact decimal parsing into `ℚ`
(IEEE-754 rounding is abstracted away; the non-finite forms `Inf`/`NaN` and
hex mantissas, which never occur on this wire, are treated as parse
failures). -/
def parseFloatQ (s : String) : Option ℚ :=
  let cs0 := s.data
  let sp : Bool × List Char :=
    match cs0 with
    | '-' :: rest => (true, rest)
    | '+' :: rest => (false, rest)
    | _ => (false, cs0)
  let ep := splitOnChar 'e' sp.2
  let ep2 : List Char × Option (List Char) :=
    match ep.2 with
    | some e => (ep.1, some e)
    | none => splitOnChar 'E' sp.2
  match mantissaParts ep2.1 with
  | none => none
  | some m =>
    let signedNum : Int := if sp.1 then -(m.1 : Int) else (m.1 : Int)
    match ep2.2 with
    | none => some (mkRat signedNum (10 ^ m.2))
    | some ecs =>
      match expVal ecs with
      | none => none
      | some e =>
        if 0 ≤ e then some (mkRat (signedNum * 10 ^ e.toNat) (10 ^ m.2))
        else some (mkRat signedNum (10 ^ m.2 * 10 ^ (-e).toNat))

/-- `toFloat` (part_002, lines 145–166) on decoded-JSON inputs.  The Go
`int64` and `json.Number` switch arms are unreachable for values decoded into
`interface{}` by `encoding/json`, which produces only the shapes of `J`.
Strings go through `strconv.ParseFloat`; a malformed string, or any
non-scalar shape, yields `maxFloat` as the "unparseable" sentinel. -/
def toFloat (j : J) : ℚ :=
  match j with
  | .str s =>
    match parseFloatQ s with
    | some a => a
    | none => maxFloat
  | .num f => f
  | _ => maxFloat

@[simp]
theorem toFloat_num (f : ℚ) : toFloat (J.num f) = f := rfl

/-- Go conversion `int64(f)` of a `float64`: truncation toward zero, i.e.
T-division of the numerator by the (positive) denominator (the
out-of-`int64`-range case, implementation-defined in Go, does not matter for
any claim and is modelled as plain truncation). -/
def truncQ (q : ℚ) : Int := q.num.tdiv (q.den : Int)

/-! ### Stream data model (ws.go) -/

/-- `WSOrderbook` (ws.go lines 33–42).  `time.Time` values are modelled as
abstract instants (`Int`); the zero value of `time.Time` is instant `0`. -/
structure WSOrderbook where
  Pair : String
  Event : String
  TradeID : Int
  -- the Go field is named `Type`, a keyword in Lean
  Typ : String
  Rate : ℚ
  Amount : ℚ
  Total : ℚ
  TS : Int
  deriving DecidableEq

/-- `WSTicker` (ws.go lines 18–30). -/
structure WSTicker where
  Pair : String
  Last : ℚ
  Ask : ℚ
  Bid : ℚ
  PercentChange : ℚ
  BaseVolume : ℚ
  QuoteVolume : ℚ
  IsFrozen : Bool
  DailyHigh : ℚ
  DailyLow : ℚ
  PairID : Int
  deriving DecidableEq

/-- A payload handed to the event bus. -/
inductive Payload where
  | ob : WSOrderbook → Payload
  | tk : WSTicker → Payload
  deriving DecidableEq

/-- One `Emit(name, payload)` invocation on the event bus, in order. -/
structure Emission where
  name : String
  payload : Payload
  deriving DecidableEq

/-- Go `WSOrderbook{}` with only `Pair` assigned (what the `"i"` and unknown
switch arms of `parseOrderbook` leave behind). -/
def zeroOB (pair : String) : WSOrderbook := ⟨pair, "", 0, "", 0, 0, 0, 0⟩

/-- The delta loop of `parseOrderbook` (ws.go lines 185–218).  `pair` is the
resolved pair name, `raw1` is `raw[1]` (always present when `raw[2]` is),
`now` the wall clock at parse time.  Returns `none` where the Go code panics
(a delta that is not an array, `v[0]` missing or not a string, or a required
index out of range); otherwise the appended entries.  Note: the
`trades = append(trades, trade)` at line 217 sits OUTSIDE the switch, so every
delta — including `"i"`-tagged and unknown-tagged ones — contributes an
entry. -/
def parseOneDelta (pair : String) (raw1 : J) (now : Int) (d : J) : Option WSOrderbook :=
  match d with
  | .arr v =>
    match jIdx v 0 with
    | some (.str tag) =>
      if tag = "i" then some (zeroOB pair)
      else if tag = "o" then
        match jIdx v 1, jIdx v 2, jIdx v 3 with
        | some f1, some f2, some f3 =>
          some ⟨pair, if toFloat f3 = 0 then "remove" else "modify", 0,
            if toFloat f1 = 1 then "bid" else "ask",
            toFloat f2, toFloat f3, 0, now⟩
        | _, _, _ => none
      else if tag = "t" then
        match jIdx v 2, jIdx v 3, jIdx v 4, jIdx v 5 with
        | some f2, some f3, some f4, some f5 =>
          some ⟨pair, "trade", truncQ (toFloat raw1),
            if toFloat f2 = 1 then "buy" else "sell",
            toFloat f3, toFloat f4, toFloat f3 * toFloat f4,
            truncQ (toFloat f5)⟩
        | _, _, _, _ => none
      else some (zeroOB pair)
    | _ => none
  | _ => none

/-- The delta loop itself: appended entries in order, `none` as soon as one
delta panics. -/
def parseDeltas (pair : String) (raw1 : J) (now : Int) : List J → Option (List WSOrderbook)
  | [] => some []
  | d :: rest =>
    match parseOneDelta pair raw1 now d, parseDeltas pair raw1 now rest with
    | some e, some es => some (e :: es)
    | _, _ => none

/-- Outcome of `parseOrderbook`: a Go panic, an error return, or the entry
list. -/
inductive OBResult where
  | panicked : OBResult
  | failed : String → OBResult
  | parsed : List WSOrderbook → OBResult
  deriving DecidableEq

/-- `parseOrderbook` (ws.go lines 178–220).  The registry lookup happens
BEFORE `raw[2]` is asserted to be an array, exactly as in the source. -/
def parseOrderbook (r : Registry) (now : Int) (raw : List J) : OBResult :=
  match jIdx raw 0 with
  | none => .panicked
  | some r0 =>
    match r.ByID (intDec (truncQ (toFloat r0))) with
    | none => .failed "cannot parse to orderbook - invalid marketID"
    | some pair =>
      match jIdx raw 2 with
      | some (.arr deltas) =>
        match jIdx raw 1 with
        | none => .panicked
        | some raw1 =>
          match parseDeltas pair raw1 now deltas with
          | none => .panicked
          | some ts => .parsed ts
      | some _ => .panicked
      | none => .panicked

/-- The emission sequence of `handleOrderBook`'s loop (ws.go line 91–93):
for each entry, `Emit(v.Event, v)`, `Emit(v.Pair, v)`,
`Emit(v.Pair+"-"+v.Event, v)`, entries in order. -/
def obEmissions : List WSOrderbook → List Emission
  | [] => []
  | v :: rest =>
    ⟨v.Event, .ob v⟩ :: ⟨v.Pair, .ob v⟩ :: ⟨v.Pair ++ "-" ++ v.Event, .ob v⟩ ::
      obEmissions rest

/-- `handleOrderBook` (ws.go lines 84–95).  `none` = panic; otherwise the
emissions performed and the Go error value returned. -/
def handleOrderBook (r : Registry) (now : Int) (message : List J) :
    Option (List Emission × Option String) :=
  match parseOrderbook r now message with
  | .panicked => none
  | .failed e => some ([], some e)
  | .parsed ts => some (obEmissions ts, none)

/-- Outcome of `parseTicker`. -/
inductive TickResult where
  | panicked : TickResult
  | failed : String → TickResult
  | parsed : WSTicker → TickResult
  deriving DecidableEq

/-- `parseTicker` (ws.go lines 149–175). -/
def parseTicker (r : Registry) (raw : List J) : TickResult :=
  if raw.length ≤ 2 then .failed "cannot parse to ticker"
  else
    match jIdx raw 2 with
    | some (.arr inner) =>
      match jIdx inner 0 with
      | none => .panicked
      | some i0 =>
        let marketID := truncQ (toFloat i0)
        match r.ByID (intDec marketID) with
        | none => .failed "cannot parse to ticker - invalid marketID"
        | some pair =>
          match jIdx inner 1, jIdx inner 2, jIdx inner 3, jIdx inner 4, jIdx inner 5,
              jIdx inner 6, jIdx inner 7, jIdx inner 8, jIdx inner 9 with
          | some a1, some a2, some a3, some a4, some a5, some a6, some a7,
              some a8, some a9 =>
            .parsed ⟨pair, toFloat a1, toFloat a2, toFloat a3, toFloat a4,
              toFloat a5, toFloat a6, decide (toFloat a7 ≠ 0), toFloat a8,
              toFloat a9, marketID⟩
          | _, _, _, _, _, _, _, _, _ => .panicked
    | some _ => .panicked
    | none => .panicked

/-- `handleTicker` (ws.go lines 98–107). -/
def handleTicker (r : Registry) (message : List J) :
    Option (List Emission × Option String) :=
  match parseTicker r message with
  | .panicked => none
  | .failed e => some ([], some e)
  | .parsed t => some ([⟨"ticker", .tk t⟩], none)

/-- Result of one iteration of the `StartWS` read loop: either the goroutine
crashed on a runtime panic, or it reached the next iteration having performed
the given emissions. -/
inductive StepResult where
  | panicked : StepResult
  | continued : List Emission → StepResult
  deriving DecidableEq

/-- The body of `StartWS` (ws.go lines 62–78) applied to one successfully
read frame: `chid := int64(message[0].(float64))` — a failed type assertion or
out-of-range index panics — then dispatch on the channel id.  Go's read of a
missing map key yields the zero string, hence the `getD ""`. -/
def processMessage (r : Registry) (now : Int) (message : List J) : StepResult :=
  match jIdx message 0 with
  | some (.num q) =>
    let chid := truncQ q
    let chids := intDec chid
    if 100 < chid ∧ chid < 1000 then
      match handleOrderBook r now message with
      | none => .panicked
      | some (evs, _) => .continued evs
    else if chids = (r.ByName "ticker").getD "" then
      match handleTicker r message with
      | none => .panicked
      | some (evs, _) => .continued evs
    else .continued []
  | some _ => .panicked
  | none => .panicked

/-- The outcome of `p.ws.ReadJSON(&message)`: a transport/decode failure or a
frame. -/
inductive ReadResult where
  | failure : String → ReadResult
  | frame : List J → ReadResult

/-- One full iteration of the `StartWS` loop (ws.go lines 62–78): a read
failure is logged and the loop continues with no emissions; a read frame is
processed. -/
def processRead (r : Registry) (now : Int) (rr : ReadResult) : StepResult :=
  match rr with
  | .failure _ => .continued []
  | .frame msg => processMessage r now msg

/-! ### Shape predicates and frame-level lemmas -/

/-- A delta of the positional shape the Go switch handles without panicking:
an array whose element 0 is a string, with enough elements for its tag. -/
def deltaShaped (d : J) : Bool :=
  match d with
  | .arr v =>
    match jIdx v 0 with
    | some (.str tag) =>
      if tag = "i" then true
      else if tag = "o" then
        (jIdx v 1).isSome && (jIdx v 2).isSome && (jIdx v 3).isSome
      else if tag = "t" then
        (jIdx v 2).isSome && (jIdx v 3).isSome && (jIdx v 4).isSome &&
          (jIdx v 5).isSome
      else true
    | _ => false
  | _ => false

/-- An order-book frame of the positional shape the parser handles without
panicking: element 2 is an array of shaped deltas. -/
def obFrameShaped (msg : List J) : Bool :=
  match jIdx msg 2 with
  | some (.arr ds) => ds.all deltaShaped
  | _ => false

/-- A ticker frame of the positional shape the parser handles without
panicking: element 2 is an array of at least 10 elements. -/
def tickerFrameShaped (msg : List J) : Bool :=
  match jIdx msg 2 with
  | some (.arr inner) => decide (10 ≤ inner.length)
  | _ => false

theorem jIdx_isSome_iff {l : List J} {i : Nat} : (jIdx l i).isSome ↔ i < l.length := by
  induction l generalizing i with
  | nil => simp [jIdx]
  | cons x rest ih =>
    cases i with
    | zero => simp [jIdx]
    | succ n =>
      simpa [jIdx, Nat.succ_lt_succ_iff] using ih (i := n)

theorem jIdx_isSome_of_lt {l : List J} {i : Nat} (h : i < l.length) :
    (jIdx l i).isSome := jIdx_isSome_iff.mpr h

theorem length_of_jIdx_eq_some {l : List J} {i : Nat} {x : J}
    (h : jIdx l i = some x) : i < l.length := by
  have : (jIdx l i).isSome := by rw [h]; rfl
  exact jIdx_isSome_iff.mp this

theorem obEmissions_length (ts : List WSOrderbook) :
    (obEmissions ts).length = 3 * ts.length := by
  induction ts with
  | nil => rfl
  | cons v rest ih => simp [obEmissions, ih]; omega

theorem parseDeltas_length {pair : String} {raw1 : J} {now : Int} :
    ∀ {ds : List J} {res : List WSOrderbook},
      parseDeltas pair raw1 now ds = some res → res.length = ds.length := by
  intro ds
  induction ds with
  | nil =>
    intro res h
    simp only [parseDeltas] at h
    simp [← Option.some.inj h]
  | cons d rest ih =>
    intro res h
    simp only [parseDeltas] at h
    cases h1 : parseOneDelta pair raw1 now d with
    | none => rw [h1] at h; simp at h
    | some e =>
      cases h2 : parseDeltas pair raw1 now rest with
      | none => rw [h1, h2] at h; simp at h
      | some es =>
        rw [h1, h2] at h
        obtain rfl : e :: es = res := Option.some.inj h
        simp [ih h2]

theorem parseOneDelta_isSome (pair : String) (raw1 : J) (now : Int) {d : J}
    (h : deltaShaped d = true) : (parseOneDelta pair raw1 now d).isSome := by
  cases d with
  | arr v =>
    simp only [deltaShaped] at h
    cases h0 : jIdx v 0 with
    | none => rw [h0] at h; simp at h
    | some j0 =>
      cases j0 with
      | str tag =>
        simp only [h0] at h
        simp only [parseOneDelta, h0]
        by_cases hi : tag = "i"
        · simp [hi]
        · by_cases ho : tag = "o"
          · rw [if_neg hi, if_pos ho] at h ⊢
            simp only [Bool.and_eq_true] at h
            obtain ⟨⟨s1, s2⟩, s3⟩ := h
            obtain ⟨f1, e1⟩ := Option.isSome_iff_exists.mp s1
            obtain ⟨f2, e2⟩ := Option.isSome_iff_exists.mp s2
            obtain ⟨f3, e3⟩ := Option.isSome_iff_exists.mp s3
            rw [e1, e2, e3]
            rfl
          · by_cases ht : tag = "t"
            · rw [if_neg hi, if_neg ho, if_pos ht] at h ⊢
              simp only [Bool.and_eq_true] at h
              obtain ⟨⟨⟨s2, s3⟩, s4⟩, s5⟩ := h
              obtain ⟨f2, e2⟩ := Option.isSome_iff_exists.mp s2
              obtain ⟨f3, e3⟩ := Option.isSome_iff_exists.mp s3
              obtain ⟨f4, e4⟩ := Option.isSome_iff_exists.mp s4
              obtain ⟨f5, e5⟩ := Option.isSome_iff_exists.mp s5
              rw [e2, e3, e4, e5]
              rfl
            · simp [hi, ho, ht]
      | null => rw [h0] at h; simp at h
      | boolean b => rw [h0] at h; simp at h
      | num q => rw [h0] at h; simp at h
      | arr l => rw [h0] at h; simp at h
      | obj l => rw [h0] at h; simp at h
  | null => simp [deltaShaped] at h
  | boolean b => simp [deltaShaped] at h
  | num q => simp [deltaShaped] at h
  | str s => simp [deltaShaped] at h
  | obj l => simp [deltaShaped] at h

theorem parseDeltas_isSome (pair : String) (raw1 : J) (now : Int) {ds : List J}
    (h : ds.all deltaShaped = true) : (parseDeltas pair raw1 now ds).isSome := by
  induction ds with
  | nil => rfl
  | cons d rest ih =>
    simp only [List.all_cons, Bool.and_eq_true] at h
    obtain ⟨e, he⟩ := Option.isSome_iff_exists.mp (parseOneDelta_isSome pair raw1 now h.1)
    obtain ⟨es, hes⟩ := Option.isSome_iff_exists.mp (ih h.2)
    simp [parseDeltas, he, hes]

theorem obFrameShaped_iff {msg : List J} :
    obFrameShaped msg = true ↔
      ∃ ds, jIdx msg 2 = some (.arr ds) ∧ ds.all deltaShaped = true := by
  unfold obFrameShaped
  cases h : jIdx msg 2 with
  | none => simp
  | some j2 => cases j2 <;> simp

theorem tickerFrameShaped_iff {msg : List J} :
    tickerFrameShaped msg = true ↔
      ∃ inner, jIdx msg 2 = some (.arr inner) ∧ 10 ≤ inner.length := by
  unfold tickerFrameShaped
  cases h : jIdx msg 2 with
  | none => simp
  | some j2 => cases j2 <;> simp

theorem parseOrderbook_parsed_length {r : Registry} {now : Int} {raw ds : List J}
    {ts : List WSOrderbook}
    (hp : parseOrderbook r now raw = .parsed ts)
    (hds : jIdx raw 2 = some (.arr ds)) : ts.length = ds.length := by
  simp only [parseOrderbook] at hp
  cases h0 : jIdx raw 0 with
  | none =>
    simp only [h0] at hp
    exact OBResult.noConfusion hp
  | some r0 =>
    simp only [h0] at hp
    cases hreg : r.ByID (intDec (truncQ (toFloat r0))) with
    | none =>
      simp only [hreg] at hp
      exact OBResult.noConfusion hp
    | some pair =>
      simp only [hreg, hds] at hp
      cases h1 : jIdx raw 1 with
      | none =>
        simp only [h1] at hp
        exact OBResult.noConfusion hp
      | some raw1 =>
        simp only [h1] at hp
        cases hpd : parseDeltas pair raw1 now ds with
        | none =>
          simp only [hpd] at hp
          exact OBResult.noConfusion hp
        | some res =>
          simp only [hpd] at hp
          cases hp
          exact parseDeltas_length hpd

theorem handleOrderBook_isSome (r : Registry) (now : Int) {msg : List J}
    (h0 : (jIdx msg 0).isSome) (hs : obFrameShaped msg = true) :
    (handleOrderBook r now msg).isSome := by
  obtain ⟨ds, hds, hall⟩ := obFrameShaped_iff.mp hs
  obtain ⟨r0, e0⟩ := Option.isSome_iff_exists.mp h0
  have h2lt : 2 < msg.length := length_of_jIdx_eq_some hds
  obtain ⟨raw1, e1⟩ :=
    Option.isSome_iff_exists.mp (jIdx_isSome_of_lt (l := msg) (i := 1) (by omega))
  simp only [handleOrderBook, parseOrderbook, e0]
  cases hreg : r.ByID (intDec (truncQ (toFloat r0))) with
  | none => rfl
  | some pair =>
    obtain ⟨res, hres⟩ := Option.isSome_iff_exists.mp
      (parseDeltas_isSome pair raw1 now hall)
    simp only [hds, e1, hres]
    rfl

theorem handleTicker_isSome (r : Registry) {msg : List J}
    (hs : tickerFrameShaped msg = true) : (handleTicker r msg).isSome := by
  obtain ⟨inner, hds, hlen⟩ := tickerFrameShaped_iff.mp hs
  have h2lt : 2 < msg.length := length_of_jIdx_eq_some hds
  have hle : ¬ msg.length ≤ 2 := by omega
  obtain ⟨a0, e0⟩ :=
    Option.isSome_iff_exists.mp (jIdx_isSome_of_lt (l := inner) (i := 0) (by omega))
  obtain ⟨a1, e1⟩ :=
    Option.isSome_iff_exists.mp (jIdx_isSome_of_lt (l := inner) (i := 1) (by omega))
  obtain ⟨a2, e2⟩ :=
    Option.isSome_iff_exists.mp (jIdx_isSome_of_lt (l := inner) (i := 2) (by omega))
  obtain ⟨a3, e3⟩ :=
    Option.isSome_iff_exists.mp (jIdx_isSome_of_lt (l := inner) (i := 3) (by omega))
  obtain ⟨a4, e4⟩ :=
    Option.isSome_iff_exists.mp (jIdx_isSome_of_lt (l := inner) (i := 4) (by omega))
  obtain ⟨a5, e5⟩ :=
    Option.isSome_iff_exists.mp (jIdx_isSome_of_lt (l := inner) (i := 5) (by omega))
  obtain ⟨a6, e6⟩ :=
    Option.isSome_iff_exists.mp (jIdx_isSome_of_lt (l := inner) (i := 6) (by omega))
  obtain ⟨a7, e7⟩ :=
    Option.isSome_iff_exists.mp (jIdx_isSome_of_lt (l := inner) (i := 7) (by omega))
  obtain ⟨a8, e8⟩ :=
    Option.isSome_iff_exists.mp (jIdx_isSome_of_lt (l := inner) (i := 8) (by omega))
  obtain ⟨a9, e9⟩ :=
    Option.isSome_iff_exists.mp (jIdx_isSome_of_lt (l := inner) (i := 9) (by omega))
  simp only [handleTicker, parseTicker, hle, if_false, hds, e0]
  cases hreg : r.ByID (intDec (truncQ (toFloat a0))) with
  | none => rfl
  | some pair =>
    simp only [e1, e2, e3, e4, e5, e6, e7, e8, e9]
    rfl

/-- Claim C4 (amended): a `ReadJSON` failure is logged and the loop continues
with no emissions; a frame whose element 0 is a number is dispatched on its
channel id, and within the handled channel families a frame of the expected
positional shape cannot crash the loop — in particular an unknown market id
in the order-book family only drops the frame — while a frame for an
unhandled channel id is silently dropped.  (Frames NOT of the expected
positional shape panic, see the counterexample.) -/
theorem stream_frame_safety (r : Registry) (now : Int) :
    (∀ e, processRead r now (.failure e) = .continued []) ∧
    (∀ msg q, jIdx msg 0 = some (.num q) →
      ((100 < truncQ q ∧ truncQ q < 1000) → obFrameShaped msg = true →
        processRead r now (.frame msg) ≠ .panicked ∧
        (r.ByID (intDec (truncQ q)) = none →
          processRead r now (.frame msg) = .continued [])) ∧
      (¬(100 < truncQ q ∧ truncQ q < 1000) →
        intDec (truncQ q) = (r.ByName "ticker").getD "" →
        tickerFrameShaped msg = true →
        processRead r now (.frame msg) ≠ .panicked) ∧
      (¬(100 < truncQ q ∧ truncQ q < 1000) →
        intDec (truncQ q) ≠ (r.ByName "ticker").getD "" →
        processRead r now (.frame msg) = .continued [])) := by
  refine ⟨fun e => rfl, fun msg q h0 => ⟨?_, ?_, ?_⟩⟩
  · intro hrange hshape
    have h0s : (jIdx msg 0).isSome := by rw [h0]; rfl
    obtain ⟨⟨evs, err⟩, hev⟩ :=
      Option.isSome_iff_exists.mp (handleOrderBook_isSome r now h0s hshape)
    constructor
    · simp only [processRead, processMessage, h0]
      rw [if_pos hrange]
      simp [hev]
    · intro hregnone
      have hob : handleOrderBook r now msg =
          some ([], some "cannot parse to orderbook - invalid marketID") := by
        simp only [handleOrderBook, parseOrderbook, h0, toFloat_num, hregnone]
      simp only [processRead, processMessage, h0]
      rw [if_pos hrange]
      simp [hob]
  · intro hnot hticker hshape
    obtain ⟨⟨evs, err⟩, hev⟩ :=
      Option.isSome_iff_exists.mp (handleTicker_isSome r hshape)
    simp only [processRead, processMessage, h0]
    rw [if_neg hnot, if_pos hticker]
    simp [hev]
  · intro hnot hneq
    simp only [processRead, processMessage, h0]
    rw [if_neg hnot, if_neg hneq]

/-- Claim C4 counterexample: frames that are well-formed JSON but not of the
expected positional shape crash the read loop — the empty array panics on
`message[0]`, and a frame holding only a known in-range market id panics on
`raw[2]`.  So it is not true that no frame can terminate or crash the loop. -/
theorem stream_frame_crash_cex :
    processRead (getMarkets [("BTC_ETH", 148)]) 0 (.frame []) = .panicked ∧
    processRead (getMarkets [("BTC_ETH", 148)]) 0 (.frame [J.num 148]) = .panicked :=
  ⟨by decide, by decide⟩

/-- Witness for `stream_frame_safety`: a shaped order-book frame does not
crash the loop. -/
theorem stream_frame_safety_witness :
    processRead (getMarkets [("BTC_ETH", 148)]) 0
        (.frame [J.num 148, J.num 99, J.arr [J.arr [J.str "i"]]]) ≠ .panicked :=
  (((stream_frame_safety (getMarkets [("BTC_ETH", 148)]) 0).2
      [J.num 148, J.num 99, J.arr [J.arr [J.str "i"]]] 148 rfl).1
    (by decide) (by decide)).1

/-- Claim C8 (amended): a delta tagged `"i"` is not decoded — its switch arm
assigns no field — but it still contributes one zero-valued entry (only the
pair name set) to the parser result, because the append sits outside the
switch; that entry then takes part in the emission fan-out like any other. -/
theorem i_delta_appends_zero_entry (pair : String) (raw1 : J) (now : Int)
    (tl rest : List J) (res : List WSOrderbook)
    (hrest : parseDeltas pair raw1 now rest = some res) :
    parseDeltas pair raw1 now (J.arr (J.str "i" :: tl) :: rest) =
      some (zeroOB pair :: res) := by
  simp [parseDeltas, parseOneDelta, jIdx, hrest]

/-- Claim C8 counterexample: an `"i"` delta contributes an entry to the
parser result and causes three event emissions (with the empty event name),
contradicting "contributes no decoded entry and causes no event emission". -/
theorem i_delta_emits_cex :
    parseOrderbook (getMarkets [("BTC_ETH", 148)]) 7
        [J.num 148, J.num 99, J.arr [J.arr [J.str "i"]]] =
      .parsed [zeroOB "BTC_ETH"] ∧
    processMessage (getMarkets [("BTC_ETH", 148)]) 7
        [J.num 148, J.num 99, J.arr [J.arr [J.str "i"]]] =
      .continued [⟨"", .ob (zeroOB "BTC_ETH")⟩, ⟨"BTC_ETH", .ob (zeroOB "BTC_ETH")⟩,
        ⟨"BTC_ETH-", .ob (zeroOB "BTC_ETH")⟩] :=
  ⟨by decide, by decide⟩

/-- Witness for `i_delta_appends_zero_entry`. -/
theorem i_delta_appends_zero_entry_witness :
    parseDeltas "BTC_ETH" (J.num 99) 7 [J.arr [J.str "i"]] =
      some [zeroOB "BTC_ETH"] :=
  i_delta_appends_zero_entry "BTC_ETH" (J.num 99) 7 [] [] [] rfl

/-- Claim C9: a successfully parsed order-book frame with N deltas produces
exactly the emission sequence `Event`, `Pair`, `Pair+"-"+Event` per decoded
entry, entries in server order, for a total of exactly 3·N emissions. -/
theorem orderbook_frame_emissions (r : Registry) (now : Int) (msg ds : List J)
    (q : ℚ) (ts : List WSOrderbook)
    (h0 : jIdx msg 0 = some (.num q))
    (hlo : 100 < truncQ q) (hhi : truncQ q < 1000)
    (hds : jIdx msg 2 = some (.arr ds))
    (hp : parseOrderbook r now msg = .parsed ts) :
    processMessage r now msg = .continued (obEmissions ts) ∧
    (obEmissions ts).length = 3 * ds.length := by
  constructor
  · simp only [processMessage, h0]
    rw [if_pos ⟨hlo, hhi⟩]
    simp [handleOrderBook, hp]
  · rw [obEmissions_length, parseOrderbook_parsed_length hp hds]

/-- Witness for `orderbook_frame_emissions`: a two-delta frame produces six
emissions. -/
theorem orderbook_frame_emissions_witness :
    processMessage (getMarkets [("BTC_ETH", 148)]) 7
        [J.num 148, J.num 99, J.arr [J.arr [J.str "i"], J.arr [J.str "x"]]] =
      .continued (obEmissions [zeroOB "BTC_ETH", zeroOB "BTC_ETH"]) ∧
    (obEmissions [zeroOB "BTC_ETH", zeroOB "BTC_ETH"]).length = 3 * 2 :=
  orderbook_frame_emissions (getMarkets [("BTC_ETH", 148)]) 7
    [J.num 148, J.num 99, J.arr [J.arr [J.str "i"], J.arr [J.str "x"]]]
    [J.arr [J.str "i"], J.arr [J.str "x"]] 148 [zeroOB "BTC_ETH", zeroOB "BTC_ETH"]
    rfl (by decide) (by decide) rfl (by decide)

/-- Claim C10: an `"o"`-tagged delta decodes with `Typ = "bid"` iff the flag
at index 1 equals 1 (else `"ask"`), rate from index 2, amount from index 3,
`Event = "remove"` iff the amount equals 0 (else `"modify"`), and timestamp
equal to the wall clock at parse time. -/
theorem o_delta_decode (pair : String) (raw1 : J) (now : Int) (v : List J)
    (f1 f2 f3 : J)
    (h0 : jIdx v 0 = some (.str "o"))
    (h1 : jIdx v 1 = some f1) (h2 : jIdx v 2 = some f2) (h3 : jIdx v 3 = some f3) :
    parseOneDelta pair raw1 now (J.arr v) =
      some ⟨pair, if toFloat f3 = 0 then "remove" else "modify", 0,
        if toFloat f1 = 1 then "bid" else "ask",
        toFloat f2, toFloat f3, 0, now⟩ := by
  simp [parseOneDelta, h0, h1, h2, h3]

/-- Witness for `o_delta_decode`: the spec's literal delta
`["o", 1, "0.5", "0.0"]`. -/
theorem o_delta_decode_witness :
    parseOneDelta "BTC_ETH" (J.num 99) 7
        (J.arr [J.str "o", J.num 1, J.str "0.5", J.str "0.0"]) =
      some ⟨"BTC_ETH",
        if toFloat (J.str "0.0") = 0 then "remove" else "modify", 0,
        if toFloat (J.num 1) = 1 then "bid" else "ask",
        toFloat (J.str "0.5"), toFloat (J.str "0.0"), 0, 7⟩ :=
  o_delta_decode "BTC_ETH" (J.num 99) 7 [J.str "o", J.num 1, J.str "0.5", J.str "0.0"]
    (J.num 1) (J.str "0.5") (J.str "0.0") rfl rfl rfl rfl

/-! ### REST dispatcher response classification (part_000, `private`) -/

/-- Outcome of a dispatcher call as seen by the caller: the decoded value, or
a Go error. -/
inductive RestOutcome (α : Type) where
  | ok : α → RestOutcome α
  | err : String → RestOutcome α
  deriving DecidableEq

/-- The JSON-codec outcomes for one response body `s`, supplied by the
external `encoding/json` collaborator: `errorField = some e` iff
`json.Unmarshal([]byte(s), &perr)` succeeds with `perr.Error = e` (`""` when
the object has no error field); `none` iff that unmarshal itself errors.
`target` is the outcome of `json.Unmarshal([]byte(s), retval)`. -/
structure BodyDecode (α : Type) where
  errorField : Option String
  target : Except String α

/-- Go `strings.HasPrefix(s, "[")`: the body's first character is `[`. -/
def startsWithBracket (s : String) : Bool :=
  match s.data with
  | c :: _ => c = '['
  | [] => false

/-- The response-body classification of `private` (part_000 lines 640–661):
bodies beginning with `[` yield the zero value and no error; otherwise a
decodable `{error: e}` object with non-empty `e` fails with exactly `e`;
otherwise the body is decoded into the caller's target and any decode error
is returned (the `retval == nil` branch only logs before returning the same
error). -/
def privateClassify {α : Type} (zero : α) (s : String) (d : BodyDecode α) :
    RestOutcome α :=
  if startsWithBracket s then .ok zero
  else
    match d.errorField with
    | some e =>
      if e ≠ "" then .err e
      else
        match d.target with
        | .ok a => .ok a
        | .error m => .err m
    | none =>
      match d.target with
      | .ok a => .ok a
      | .error m => .err m

/-- Claim C1: the response body of every private call is classified in this
order — a body beginning with `[` yields the zero value and no error; else a
body decoding as an object with non-empty `error` fails with exactly that
message; else the body is decoded into the target and any decode error is
returned. -/
theorem private_response_classification {α : Type} (zero : α) (s : String)
    (d : BodyDecode α) :
    (startsWithBracket s = true → privateClassify zero s d = .ok zero) ∧
    (startsWithBracket s = false → ∀ e, d.errorField = some e → e ≠ "" →
      privateClassify zero s d = .err e) ∧
    (startsWithBracket s = false →
      (d.errorField = none ∨ d.errorField = some "") →
      privateClassify zero s d =
        match d.target with
        | .ok a => .ok a
        | .error m => .err m) := by
  refine ⟨?_, ?_, ?_⟩
  · intro hb
    simp [privateClassify, hb]
  · intro hb e he hne
    simp [privateClassify, hb, he, hne]
  · intro hb hf
    rcases hf with hf | hf <;> simp [privateClassify, hb, hf]

/-- Witness for `private_response_classification`: the empty-array sentinel,
the spec's literal server error, and a plain decodable body. -/
theorem private_response_classification_witness :
    privateClassify (0 : Nat) "[]" ⟨none, .error "x"⟩ = .ok 0 ∧
    privateClassify (0 : Nat) "e" ⟨some "Invalid API key.", .ok 5⟩ =
      .err "Invalid API key." ∧
    privateClassify (0 : Nat) "e" ⟨some "", .ok 5⟩ = .ok 5 :=
  ⟨(private_response_classification 0 "[]" ⟨none, .error "x"⟩).1 (by decide),
   (private_response_classification 0 "e" ⟨some "Invalid API key.", .ok 5⟩).2.1
     (by decide) "Invalid API key." rfl (by decide),
   (private_response_classification 0 "e" ⟨some "", .ok 5⟩).2.2
     (by decide) (Or.inr rfl)⟩

/-! ### Subscribe / Unsubscribe (ws.go, ws-private.go) -/

/-- The `subscription` control frame (ws-private.go lines 8–11). -/
structure Subscription where
  Command : String
  Channel : String
  deriving DecidableEq

/-- `sendWSMessage` (ws-private.go lines 19–22):
`p.ws.WriteJSON(msg); return nil`.  `writeErr` is the outcome `ws.WriteJSON`
reports for this write (`none` = success, `some e` = transport error); the
function discards it and returns nil unconditionally. -/
def sendWSMessage (writeErr : Option String) (msg : Subscription) :
    Option String := none

/-- `Subscribe` (ws.go lines 115–127): resolve the token through `ByName`,
then `ByID`; insert the resolved value into the subscription set; send
`{command: "subscribe", channel: <resolved>}`.  Result: updated subscription
set, the frame written (if any), and the Go error result. -/
def Subscribe (r : Registry) (subs : String → Bool) (chid : String)
    (writeErr : Option String) :
    (String → Bool) × Option Subscription × Option String :=
  match r.ByName chid with
  | some c =>
    (fun x => if x = c then true else subs x, some ⟨"subscribe", c⟩,
      sendWSMessage writeErr ⟨"subscribe", c⟩)
  | none =>
    match r.ByID chid with
    | some c =>
      (fun x => if x = c then true else subs x, some ⟨"subscribe", c⟩,
        sendWSMessage writeErr ⟨"subscribe", c⟩)
    | none => (subs, none, some "unrecognised channelid in subscribe")

/-- `Unsubscribe` (ws.go lines 135–146): resolves identically, deletes from
the subscription set, and sends — an upstream quirk kept by the source — the
same `"subscribe"` command verb. -/
def Unsubscribe (r : Registry) (subs : String → Bool) (chid : String)
    (writeErr : Option String) :
    (String → Bool) × Option Subscription × Option String :=
  match r.ByName chid with
  | some c =>
    (fun x => if x = c then false else subs x, some ⟨"subscribe", c⟩,
      sendWSMessage writeErr ⟨"subscribe", c⟩)
  | none =>
    match r.ByID chid with
    | some c =>
      (fun x => if x = c then false else subs x, some ⟨"subscribe", c⟩,
        sendWSMessage writeErr ⟨"subscribe", c⟩)
    | none => (subs, none, some "unrecognised channelid in subscribe")

/-- Claim C6 (amended): the token is resolved first as a name, then as an id;
the frame carries the value the successful lookup maps to — for a name token
that is the numeric id, but for an id token it is `ByID`'s value, i.e. the
channel NAME, not the numeric id.  A token that is neither yields the error
"unrecognised channelid in subscribe" and no frame is sent. -/
theorem subscribe_channel_resolution (r : Registry) (subs : String → Bool)
    (tok : String) (w : Option String) :
    (∀ c, r.ByName tok = some c →
      (Subscribe r subs tok w).2.1 = some ⟨"subscribe", c⟩ ∧
      (Unsubscribe r subs tok w).2.1 = some ⟨"subscribe", c⟩) ∧
    (r.ByName tok = none → ∀ c, r.ByID tok = some c →
      (Subscribe r subs tok w).2.1 = some ⟨"subscribe", c⟩ ∧
      (Unsubscribe r subs tok w).2.1 = some ⟨"subscribe", c⟩) ∧
    (r.ByName tok = none → r.ByID tok = none →
      (Subscribe r subs tok w).2.1 = none ∧
      (Subscribe r subs tok w).2.2 = some "unrecognised channelid in subscribe" ∧
      (Unsubscribe r subs tok w).2.1 = none ∧
      (Unsubscribe r subs tok w).2.2 = some "unrecognised channelid in subscribe") := by
  refine ⟨?_, ?_, ?_⟩
  · intro c hc
    simp [Subscribe, Unsubscribe, hc]
  · intro hn c hc
    simp [Subscribe, Unsubscribe, hn, hc]
  · intro hn hi
    simp [Subscribe, Unsubscribe, hn, hi]

/-- Claim C6 counterexample: on the bootstrapped registry, subscribing with
the ticker channel id token `"1002"` sends a frame whose channel field is the
NAME `"ticker"`, not the resolved numeric id `"1002"`. -/
theorem subscribe_id_token_sends_name_cex :
    (Subscribe (getMarkets []) (fun _ => false) "1002" none).2.1 =
      some ⟨"subscribe", "ticker"⟩ ∧ ("ticker" : String) ≠ "1002" :=
  ⟨by decide, by decide⟩

/-- Witness for `subscribe_channel_resolution`: a name token carries the
numeric id. -/
theorem subscribe_channel_resolution_witness :
    (Subscribe (getMarkets []) (fun _ => false) "ticker" none).2.1 =
      some ⟨"subscribe", "1002"⟩ :=
  ((subscribe_channel_resolution (getMarkets []) (fun _ => false) "ticker"
      none).1 "1002" (by decide)).1

/-- Claim C7 (amended): `sendWSMessage` discards the WebSocket write error
and returns nil unconditionally, so Subscribe and Unsubscribe report NO error
whenever the token resolves — a transport write failure is never surfaced to
the caller. -/
theorem subscribe_write_error_discarded (r : Registry) (subs : String → Bool)
    (tok : String) (w : Option String) (msg : Subscription) :
    sendWSMessage w msg = none ∧
    ((r.ByName tok).isSome ∨ (r.ByID tok).isSome →
      (Subscribe r subs tok w).2.2 = none ∧
      (Unsubscribe r subs tok w).2.2 = none) := by
  refine ⟨rfl, ?_⟩
  intro h
  cases hn : r.ByName tok with
  | some c => simp [Subscribe, Unsubscribe, hn, sendWSMessage]
  | none =>
    rcases h with h | h
    · rw [hn] at h
      exact absurd h (by simp)
    · obtain ⟨c, hc⟩ := Option.isSome_iff_exists.mp h
      simp [Subscribe, Unsubscribe, hn, hc, sendWSMessage]

/-- Claim C7 counterexample: with a failing transport write, `Subscribe`
returns no error — the transport error "write failed" is not surfaced. -/
theorem subscribe_swallows_write_error_cex :
    (Subscribe (getMarkets []) (fun _ => false) "ticker"
        (some "write failed")).2.2 = none ∧
    (Subscribe (getMarkets []) (fun _ => false) "ticker"
        (some "write failed")).2.2 ≠ some "write failed" :=
  ⟨by decide, by decide⟩

/-- Witness for `subscribe_write_error_discarded`. -/
theorem subscribe_write_error_discarded_witness :
    (Subscribe (getMarkets []) (fun _ => false) "heartbeat"
        (some "write failed")).2.2 = none :=
  ((subscribe_write_error_discarded (getMarkets []) (fun _ => false)
      "heartbeat" (some "write failed") ⟨"subscribe", "1010"⟩).2
    (Or.inl (by decide))).1

/-! ### REST operations: error plumbing (public.go, part_000)

Each operation is modelled as a function of the dispatcher's outcome `d`
(what `p.public`/`p.private` returns for its call), yielding the pair the Go
function returns: the value and the error.  Response shapes that the
operation does not inspect stay type parameters; post-decode conversions the
operation performs on the value (`toFloat` loops, `tempToOrderBook`, the
active-loan date parse) are abstracted as a `conv` parameter, because they do
not touch the error result.  -/

/-- The Go error value the dispatcher hands back. -/
def errOf {α : Type} : RestOutcome α → Option String
  | .ok _ => none
  | .err e => some e

/-- The decoded value; the target keeps its zero value when the dispatcher
failed. -/
def valOf {α : Type} [Inhabited α] : RestOutcome α → α
  | .ok a => a
  | .err _ => default

/-- The `Base` envelope (part_000 lines 20–24). -/
structure Base where
  Error : String
  Success : Int
  Response : String

instance : Inhabited Base := ⟨⟨"", 0, ""⟩⟩

/-- `Ticker` (public.go 116–119): `err = p.public(...); return`. -/
def Ticker_call {α : Type} [Inhabited α] (d : RestOutcome α) : α × Option String :=
  (valOf d, errOf d)

/-- `DailyVolume` (public.go 122–144): `err = p.public(...)`; early return on
error, else convert the temp map. -/
def DailyVolume_call {α β : Type} [Inhabited β] (conv : α → β) (d : RestOutcome α) :
    β × Option String :=
  match d with
  | .err e => (default, some e)
  | .ok a => (conv a, none)

/-- `OrderBook` (public.go 148–159): early return on error, else
`tempToOrderBook`. -/
def OrderBook_call {α β : Type} [Inhabited β] (conv : α → β) (d : RestOutcome α) :
    β × Option String :=
  match d with
  | .err e => (default, some e)
  | .ok a => (conv a, none)

/-- `OrderBookAll` (public.go 163–177): early return on error, else convert
each market. -/
def OrderBookAll_call {α β : Type} [Inhabited β] (conv : α → β) (d : RestOutcome α) :
    β × Option String :=
  match d with
  | .err e => (default, some e)
  | .ok a => (conv a, none)

/-- `TradeHistory` (public.go 184–197): `err = p.public(...); return`. -/
def TradeHistory_call {α : Type} [Inhabited α] (d : RestOutcome α) : α × Option String :=
  (valOf d, errOf d)

/-- `ChartData` (public.go 204–212). -/
def ChartData_call {α : Type} [Inhabited α] (d : RestOutcome α) : α × Option String :=
  (valOf d, errOf d)

/-- `ChartDataPeriod` (public.go 215–228). -/
def ChartDataPeriod_call {α : Type} [Inhabited α] (d : RestOutcome α) : α × Option String :=
  (valOf d, errOf d)

/-- `ChartDataCurrent` (public.go 231–239). -/
def ChartDataCurrent_call {α : Type} [Inhabited α] (d : RestOutcome α) : α × Option String :=
  (valOf d, errOf d)

/-- `Currencies` (public.go 242–245). -/
def Currencies_call {α : Type} [Inhabited α] (d : RestOutcome α) : α × Option String :=
  (valOf d, errOf d)

/-- `LoanOrders` (public.go 248–253). -/
def LoanOrders_call {α : Type} [Inhabited α] (d : RestOutcome α) : α × Option String :=
  (valOf d, errOf d)

/-- `Balances` (part_000 232–235): `err = p.private(...); return balances, err`. -/
def Balances_call {α : Type} [Inhabited α] (d : RestOutcome α) : α × Option String :=
  (valOf d, errOf d)

/-- `AccountBalances` (part_000 238–252): `p.private(...)` is called WITHOUT
capturing its error; the temp map is converted and the zero-valued `err` is
returned. -/
def AccountBalances_call {α β : Type} [Inhabited α] (conv : α → β)
    (d : RestOutcome α) : β × Option String :=
  (conv (valOf d), none)

/-- `Addresses` (part_000 255–258): `p.private(...)` is called WITHOUT
capturing its error; the zero-valued `err` is returned. -/
def Addresses_call {α : Type} [Inhabited α] (d : RestOutcome α) : α × Option String :=
  (valOf d, none)

/-- `GenerateNewAddress` (part_000 261–268): decodes a `Base`, returns
`b.Response` and the dispatcher error. -/
def GenerateNewAddress_call (d : RestOutcome Base) : String × Option String :=
  ((valOf d).Response, errOf d)

/-- `DepositsWithdrawals` (part_000 271–277). -/
def DepositsWithdrawals_call {α : Type} [Inhabited α] (d : RestOutcome α) :
    α × Option String :=
  (valOf d, errOf d)

/-- `OpenOrders` (part_000 280–285). -/
def OpenOrders_call {α : Type} [Inhabited α] (d : RestOutcome α) : α × Option String :=
  (valOf d, errOf d)

/-- `OpenOrdersAll` (part_000 288–293). -/
def OpenOrdersAll_call {α : Type} [Inhabited α] (d : RestOutcome α) : α × Option String :=
  (valOf d, errOf d)

/-- `PrivateTradeHistory` (part_000 296–309). -/
def PrivateTradeHistory_call {α : Type} [Inhabited α] (d : RestOutcome α) :
    α × Option String :=
  (valOf d, errOf d)

/-- `PrivateTradeHistoryAll` (part_000 312–325). -/
def PrivateTradeHistoryAll_call {α : Type} [Inhabited α] (d : RestOutcome α) :
    α × Option String :=
  (valOf d, errOf d)

/-- `OrderTrades` (part_000 328–333). -/
def OrderTrades_call {α : Type} [Inhabited α] (d : RestOutcome α) : α × Option String :=
  (valOf d, errOf d)

/-- `CancelOrder` (part_000 336–343): `success = b.Success == 1`, dispatcher
error returned. -/
def CancelOrder_call (d : RestOutcome Base) : Bool × Option String :=
  (decide ((valOf d).Success = 1), errOf d)

/-- `Buy` (part_000 346–353). -/
def Buy_call {α : Type} [Inhabited α] (d : RestOutcome α) : α × Option String :=
  (valOf d, errOf d)

/-- `BuyPostOnly` (part_000 357–365). -/
def BuyPostOnly_call {α : Type} [Inhabited α] (d : RestOutcome α) : α × Option String :=
  (valOf d, errOf d)

/-- `BuyFillKill` (part_000 369–377). -/
def BuyFillKill_call {α : Type} [Inhabited α] (d : RestOutcome α) : α × Option String :=
  (valOf d, errOf d)

/-- `BuyImmediateOrCancel` (part_000 382–390). -/
def BuyImmediateOrCancel_call {α : Type} [Inhabited α] (d : RestOutcome α) :
    α × Option String :=
  (valOf d, errOf d)

/-- `Sell` (part_000 393–400). -/
def Sell_call {α : Type} [Inhabited α] (d : RestOutcome α) : α × Option String :=
  (valOf d, errOf d)

/-- `SellPostOnly` (part_000 404–412). -/
def SellPostOnly_call {α : Type} [Inhabited α] (d : RestOutcome α) : α × Option String :=
  (valOf d, errOf d)

/-- `SellImmediateOrCancel` (part_000 417–425). -/
def SellImmediateOrCancel_call {α : Type} [Inhabited α] (d : RestOutcome α) :
    α × Option String :=
  (valOf d, errOf d)

/-- `Move` (part_000 429–435). -/
def Move_call {α : Type} [Inhabited α] (d : RestOutcome α) : α × Option String :=
  (valOf d, errOf d)

/-- `MovePostOnly` (part_000 440–447). -/
def MovePostOnly_call {α : Type} [Inhabited α] (d : RestOutcome α) : α × Option String :=
  (valOf d, errOf d)

/-- `MoveImmediateOrCancel` (part_000 453–460). -/
def MoveImmediateOrCancel_call {α : Type} [Inhabited α] (d : RestOutcome α) :
    α × Option String :=
  (valOf d, errOf d)

/-- `Withdraw` (part_000 464–471): the target is passed by value, so the
decoded response is discarded, but the dispatcher error is still returned. -/
def Withdraw_call {α : Type} [Inhabited α] (d : RestOutcome α) : α × Option String :=
  (default, errOf d)

/-- `FeeInfo` (part_000 474–477). -/
def FeeInfo_call {α : Type} [Inhabited α] (d : RestOutcome α) : α × Option String :=
  (valOf d, errOf d)

/-- `AvailableAccountBalances` (part_000 480–499): early return on error,
else convert. -/
def AvailableAccountBalances_call {α β : Type} [Inhabited β] (conv : α → β)
    (d : RestOutcome α) : β × Option String :=
  match d with
  | .err e => (default, some e)
  | .ok a => (conv a, none)

/-- `TradableBalances` (part_000 502–516): early return on error, else
convert. -/
def TradableBalances_call {α β : Type} [Inhabited β] (conv : α → β)
    (d : RestOutcome α) : β × Option String :=
  match d with
  | .err e => (default, some e)
  | .ok a => (conv a, none)

/-- `TransferBalance` (part_000 519–528). -/
def TransferBalance_call {α : Type} [Inhabited α] (d : RestOutcome α) : α × Option String :=
  (valOf d, errOf d)

/-- `MarginAccountSummary` (part_000 531–534). -/
def MarginAccountSummary_call {α : Type} [Inhabited α] (d : RestOutcome α) :
    α × Option String :=
  (valOf d, errOf d)

/-- `LoanOffer` (part_000 537–550). -/
def LoanOffer_call {α : Type} [Inhabited α] (d : RestOutcome α) : α × Option String :=
  (valOf d, errOf d)

/-- `CancelLoanOffer` (part_000 553–560). -/
def CancelLoanOffer_call (d : RestOutcome Base) : Bool × Option String :=
  (decide ((valOf d).Success = 1), errOf d)

/-- `OpenLoanOffers` (part_000 563–566). -/
def OpenLoanOffers_call {α : Type} [Inhabited α] (d : RestOutcome α) : α × Option String :=
  (valOf d, errOf d)

/-- `ActiveLoans` (part_000 569–584): post-processes the loan list (the inner
`time.Parse` error is a shadowed local), returns the dispatcher error. -/
def ActiveLoans_call {α β : Type} [Inhabited α] (conv : α → β) (d : RestOutcome α) :
    β × Option String :=
  (conv (valOf d), errOf d)

/-- `ToggleAutoRenew` (part_000 587–594). -/
def ToggleAutoRenew_call (d : RestOutcome Base) : Bool × Option String :=
  (decide ((valOf d).Success = 1), errOf d)

/-- Claim C5 (amended): every REST operation returns the dispatcher's error
as its own error result — EXCEPT `Addresses` and `AccountBalances`, which
call the dispatcher without capturing its return and always report no
error. -/
theorem rest_error_propagation {α β : Type} [Inhabited α] [Inhabited β]
    (conv : α → β) (d : RestOutcome α) (db : RestOutcome Base) :
    (Ticker_call d).2 = errOf d ∧
    (DailyVolume_call conv d).2 = errOf d ∧
    (OrderBook_call conv d).2 = errOf d ∧
    (OrderBookAll_call conv d).2 = errOf d ∧
    (TradeHistory_call d).2 = errOf d ∧
    (ChartData_call d).2 = errOf d ∧
    (ChartDataPeriod_call d).2 = errOf d ∧
    (ChartDataCurrent_call d).2 = errOf d ∧
    (Currencies_call d).2 = errOf d ∧
    (LoanOrders_call d).2 = errOf d ∧
    (Balances_call d).2 = errOf d ∧
    (GenerateNewAddress_call db).2 = errOf db ∧
    (DepositsWithdrawals_call d).2 = errOf d ∧
    (OpenOrders_call d).2 = errOf d ∧
    (OpenOrdersAll_call d).2 = errOf d ∧
    (PrivateTradeHistory_call d).2 = errOf d ∧
    (PrivateTradeHistoryAll_call d).2 = errOf d ∧
    (OrderTrades_call d).2 = errOf d ∧
    (CancelOrder_call db).2 = errOf db ∧
    (Buy_call d).2 = errOf d ∧
    (BuyPostOnly_call d).2 = errOf d ∧
    (BuyFillKill_call d).2 = errOf d ∧
    (BuyImmediateOrCancel_call d).2 = errOf d ∧
    (Sell_call d).2 = errOf d ∧
    (SellPostOnly_call d).2 = errOf d ∧
    (SellImmediateOrCancel_call d).2 = errOf d ∧
    (Move_call d).2 = errOf d ∧
    (MovePostOnly_call d).2 = errOf d ∧
    (MoveImmediateOrCancel_call d).2 = errOf d ∧
    (Withdraw_call d).2 = errOf d ∧
    (FeeInfo_call d).2 = errOf d ∧
    (AvailableAccountBalances_call conv d).2 = errOf d ∧
    (TradableBalances_call conv d).2 = errOf d ∧
    (TransferBalance_call d).2 = errOf d ∧
    (MarginAccountSummary_call d).2 = errOf d ∧
    (LoanOffer_call d).2 = errOf d ∧
    (CancelLoanOffer_call db).2 = errOf db ∧
    (OpenLoanOffers_call d).2 = errOf d ∧
    (ActiveLoans_call conv d).2 = errOf d ∧
    (ToggleAutoRenew_call db).2 = errOf db ∧
    (Addresses_call d).2 = none ∧
    (AccountBalances_call conv d).2 = none := by
  cases d <;> cases db <;>
    simp [Ticker_call, DailyVolume_call, OrderBook_call, OrderBookAll_call,
      TradeHistory_call, ChartData_call, ChartDataPeriod_call,
      ChartDataCurrent_call, Currencies_call, LoanOrders_call, Balances_call,
      GenerateNewAddress_call, DepositsWithdrawals_call, OpenOrders_call,
      OpenOrdersAll_call, PrivateTradeHistory_call, PrivateTradeHistoryAll_call,
      OrderTrades_call, CancelOrder_call, Buy_call, BuyPostOnly_call,
      BuyFillKill_call, BuyImmediateOrCancel_call, Sell_call, SellPostOnly_call,
      SellImmediateOrCancel_call, Move_call, MovePostOnly_call,
      MoveImmediateOrCancel_call, Withdraw_call, FeeInfo_call,
      AvailableAccountBalances_call, TradableBalances_call,
      TransferBalance_call, MarginAccountSummary_call, LoanOffer_call,
      CancelLoanOffer_call, OpenLoanOffers_call, ActiveLoans_call,
      ToggleAutoRenew_call, Addresses_call, AccountBalances_call, errOf, valOf]

/-- Claim C5 counterexample: `Addresses` and `AccountBalances` silently
discard a dispatcher error — the dispatcher reports "dispatcher failure",
the operations report no error. -/
theorem addresses_discards_error_cex :
    errOf (RestOutcome.err "dispatcher failure" : RestOutcome Nat) =
      some "dispatcher failure" ∧
    (Addresses_call (RestOutcome.err "dispatcher failure" : RestOutcome Nat)).2 =
      none ∧
    (AccountBalances_call (fun a => a)
        (RestOutcome.err "dispatcher failure" : RestOutcome Nat)).2 = none :=
  ⟨rfl, rfl, rfl⟩

end Polo
